import Mathlib

/-!
Verification of the PDF pitch-deck extractor (`server/pdf-extractor-python.py`).

The script is embedded shallowly: every call into an external collaborator
(pdfplumber, pytesseract, pdf2image, the `pdftotext` command, the OpenAI API,
`json.loads`) is represented by an oracle living in an environment record, and
each such call either raises (`Res.exn`) or returns a value (`Res.ok`).
Python strings are Lean `String`s; Python's `str.strip()` is `pstrip` below.
Side effects that the specification talks about (per-page processing, OCR
invocations, temporary-file creation/deletion, network calls, strategy
attempts) are recorded in an event log that the embedded functions return
alongside their values.
-/

/-- Characters removed by Python's `str.strip()` with no arguments. -/
def pyWs (c : Char) : Bool :=
  c = ' ' || c = '\t' || c = '\n' || c = '\r' || c = '\x0b' || c = '\x0c'

/-- `str.strip()` on the underlying character list: drop whitespace from both ends. -/
def pstripList (l : List Char) : List Char :=
  (((l.dropWhile pyWs).reverse.dropWhile pyWs)).reverse

/-- Python's `s.strip()`. -/
def pstrip (s : String) : String :=
  ⟨pstripList s.data⟩

/-- Result of a call into an external collaborator: a raised exception
(with its Python type name and message) or a normal return value. -/
inductive Res (α : Type) where
  | exn (ty : String) (msg : String)
  | ok (val : α)
deriving DecidableEq

/-- JSON values, as produced by `json.loads` and `json.dumps`; objects are
ordered association lists, matching Python dict insertion order. -/
inductive J where
  | null
  | bool (b : Bool)
  | num (n : Int)
  | str (s : String)
  | arr (xs : List J)
  | obj (fields : List (String × J))

/-- Key lookup in a JSON object's field list (first binding wins; objects
decoded from Python dicts have unique keys). -/
def lookupJ : List (String × J) → String → Option J
  | [], _ => none
  | (k, v) :: rest, key => if k = key then some v else lookupJ rest key

/-- Key lookup on a JSON value; `none` on non-objects. -/
def jGet : J → String → Option J
  | .obj fields, key => lookupJ fields key
  | _, _ => none

/-- Key lookup through a `Res`: `none` when the computation raised. -/
def resGet (r : Res J) (key : String) : Option J :=
  match r with
  | .ok j => jGet j key
  | .exn _ _ => none

/-- Python dict assignment `d[k] = v`: replace the value at an existing key
(keeping its position), or append a new binding. -/
def setKey : List (String × J) → String → J → List (String × J)
  | [], k, v => [(k, v)]
  | (k', v') :: rest, k, v =>
    if k' = k then (k', v) :: rest else (k', v') :: setKey rest k v

/-- Kinds of observable per-page effects. -/
inductive PageEvKind where
  | proc
  | tmpCreate
  | ocrCall
  | tmpDelete
deriving DecidableEq

/-- Observable effects of one invocation.  Page events carry the strategy tag
(1 = pdfplumber/inline OCR, 2 = pdf2image/full OCR) and the 1-based page index. -/
inductive Event where
  | pageEv (kind : PageEvKind) (stage : Nat) (page : Nat)
  | stratAttempt (k : Nat)
  | extCmdCall
  | netCall
deriving DecidableEq

/-- Environment of `analyze_with_openai`: the module-level credential and the
oracles for the two OpenAI client shapes and for `json.loads`. -/
structure AiEnv where
  apiKey : Option String
  newApi : Res String
  oldApi : Res String
  parse : String → Res J

/-- Python truthiness of `openai.api_key` (an `os.getenv` result):
falsy when the variable is absent or set to the empty string. -/
def keyFalsy : Option String → Bool
  | none => true
  | some s => s = ""

/-- Lines 219-222: truncate the text to 12000 characters, appending the marker. -/
def truncateText (text : String) : String :=
  if text.length > 12000 then text.take 12000 ++ "\n\n[TEXTO TRUNCADO PARA ANÁLISE]" else text

/-- Lines 287-290: strip triple-backtick code fences from the raw model reply. -/
def cleanFence (s : String) : String :=
  if s.startsWith "```json" then pstrip (((s.replace "```json" "").replace "```" ""))
  else if s.startsWith "```" then pstrip (s.replace "```" "")
  else s

/-- Lines 311-318: fallback dict returned when `json.loads` raises. -/
def parseFailFallback (name msg raw : String) : J :=
  J.obj [("name", J.str name),
         ("description", J.str ("Startup " ++ name ++ " - texto extraído mas análise JSON falhou")),
         ("ceo_name", J.null), ("sector", J.null),
         ("json_parse_error", J.str msg),
         ("raw_response", J.str (raw.take 1000))]

/-- Lines 324-331: fallback dict returned by the outer `except` clause. -/
def aiErrorFallback (name ty msg : String) : J :=
  J.obj [("name", J.str name),
         ("description", J.str ("Startup " ++ name ++ " - extração via Python realizada mas análise IA falhou")),
         ("ceo_name", J.null), ("sector", J.null),
         ("error", J.str msg), ("error_type", J.str ty)]

/-- Lines 209-215: dict returned when no API credential is configured. -/
def noKeyResult (name : String) : J :=
  J.obj [("name", J.str name),
         ("description", J.str ("Startup " ++ name ++ " - análise IA não disponível (API key não configurada)")),
         ("error", J.str "OpenAI API key não configurada")]

/-- `analyze_with_openai` (lines 203-331).  Returns the analysis dict (or a
propagated exception, which the code's structure never actually produces)
together with the log of network calls made. -/
def analyze_with_openai (env : AiEnv) (text : String) (name : String) :
    Res J × List Event :=
  if keyFalsy env.apiKey then
    (Res.ok (noKeyResult name), [])
  else
    let _prompt := truncateText text
    let attempt : Res String × List Event :=
      match env.newApi with
      | .ok s => (.ok s, [Event.netCall])
      | .exn _ _ =>
        match env.oldApi with
        | .ok s => (.ok s, [Event.netCall, Event.netCall])
        | .exn ty msg => (.exn ty msg, [Event.netCall, Event.netCall])
    match attempt.1 with
    | .exn ty msg => (Res.ok (aiErrorFallback name ty msg), attempt.2)
    | .ok raw =>
      let cleaned := cleanFence raw
      match env.parse cleaned with
      | .exn _ msg => (Res.ok (parseFailFallback name msg cleaned), attempt.2)
      | .ok j =>
        match j with
        | .obj fields => (Res.ok (J.obj (setKey fields "name" (J.str name))), attempt.2)
        | _ =>
          (Res.ok (aiErrorFallback name "TypeError"
            "object does not support item assignment"), attempt.2)

/-- One page of the document, described by the outcomes of every external
call the script can make on it.  `extractText` is `page.extract_text()`
(returning `None` or a string, or raising); `toImage`/`saveInline`/`ocrInline`
are the inline-OCR steps of strategy 1 (`page.to_image`, `img.save`,
`pytesseract.image_to_string` at 200 dpi, por+eng); `saveFull`/`ocrFull` are
the strategy-2 steps on the 150-dpi rasterization (`image.save`,
`pytesseract` with the custom config). -/
structure Page where
  extractText : Res (Option String)
  toImage : Res Unit
  saveInline : Res Unit
  ocrInline : Res String
  saveFull : Res Unit
  ocrFull : Res String
deriving DecidableEq

/-- Whole-invocation environment: the file system facts and the per-call
oracles for every external collaborator touched by `extract_text_from_pdf`. -/
structure Env where
  fileExists : Bool
  fileSize : Nat
  baseName : String
  pages : List Page
  openOk : Bool
  convertOk : Bool
  pdftotext : Res (Int × String × String)
  pyVersion : String
  ai : AiEnv

/-- Python `if text and text.strip():` on a `page.extract_text()` result. -/
def optTextOk : Option String → Bool
  | none => false
  | some t => if t = "" then false else if pstrip t = "" then false else true

/-- A page whose native text layer is usable: `extract_text` returns a
truthy string that is non-empty after trimming. -/
def pageHasNativeText (p : Page) : Prop :=
  match p.extractText with
  | .ok t? => optTextOk t? = true
  | .exn _ _ => False

/-- Line 76: the page-boundary marker around native page text. -/
def pageMarker (i : Nat) (t : String) : String :=
  "\n=== PÁGINA " ++ Nat.repr i ++ " ===\n" ++ t ++ "\n"

/-- Line 93: the marker around inline-OCR page text. -/
def ocrMarker (i : Nat) (t : String) : String :=
  "\n=== PÁGINA " ++ Nat.repr i ++ " (OCR) ===\n" ++ t ++ "\n"

/-- Line 137: the marker around full-document-OCR page text. -/
def fullMarker (i : Nat) (t : String) : String :=
  "\n=== PÁGINA " ++ Nat.repr i ++ " (PDF2IMAGE+OCR) ===\n" ++ t ++ "\n"

/-- Lines 73-104: one iteration of the strategy-1 page loop.  Returns the
text appended to `extracted_text` and the page's events.  Page-level and
OCR-level exceptions are swallowed exactly where the `except` clauses sit;
note that `os.unlink` (line 97) runs only if `img.save` and the OCR call
both return, so a raising step leaves the temporary file behind. -/
def processPage1 (i : Nat) (p : Page) : String × List Event :=
  match p.extractText with
  | .exn _ _ => ("", [Event.pageEv .proc 1 i])
  | .ok t? =>
    if optTextOk t? then
      (pageMarker i (t?.getD ""), [Event.pageEv .proc 1 i])
    else
      match p.toImage with
      | .exn _ _ => ("", [Event.pageEv .proc 1 i])
      | .ok _ =>
        match p.saveInline with
        | .exn _ _ => ("", [Event.pageEv .proc 1 i, Event.pageEv .tmpCreate 1 i])
        | .ok _ =>
          match p.ocrInline with
          | .exn _ _ =>
            ("", [Event.pageEv .proc 1 i, Event.pageEv .tmpCreate 1 i,
                  Event.pageEv .ocrCall 1 i])
          | .ok s =>
            ((if optTextOk (some s) then ocrMarker i s else ""),
             [Event.pageEv .proc 1 i, Event.pageEv .tmpCreate 1 i,
              Event.pageEv .ocrCall 1 i, Event.pageEv .tmpDelete 1 i])

/-- The strategy-1 loop over a page list, starting at 1-based index `i`. -/
def runPages1 : Nat → List Page → String × List Event
  | _, [] => ("", [])
  | i, p :: rest =>
    let here := processPage1 i p
    let further := runPages1 (i + 1) rest
    (here.1 ++ further.1, here.2 ++ further.2)

/-- Lines 127-145: one iteration of the strategy-2 loop over the rasterized
images.  The temporary file is created first; `os.unlink` (line 141) again
runs only when both `image.save` and the OCR call return normally. -/
def processPage2 (i : Nat) (p : Page) : String × List Event :=
  match p.saveFull with
  | .exn _ _ => ("", [Event.pageEv .proc 2 i, Event.pageEv .tmpCreate 2 i])
  | .ok _ =>
    match p.ocrFull with
    | .exn _ _ =>
      ("", [Event.pageEv .proc 2 i, Event.pageEv .tmpCreate 2 i,
            Event.pageEv .ocrCall 2 i])
    | .ok s =>
      ((if optTextOk (some s) then fullMarker i s else ""),
       [Event.pageEv .proc 2 i, Event.pageEv .tmpCreate 2 i,
        Event.pageEv .ocrCall 2 i, Event.pageEv .tmpDelete 2 i])

/-- The strategy-2 loop over the rasterized pages. -/
def runPages2 : Nat → List Page → String × List Event
  | _, [] => ("", [])
  | i, p :: rest =>
    let here := processPage2 i p
    let further := runPages2 (i + 1) rest
    (here.1 ++ further.1, here.2 ++ further.2)

/-- Strategy 1 (lines 63-113): open with pdfplumber (a raised exception is
caught at line 112 with nothing yet appended) and run the page loop over at
most the first 10 pages (`if i > 10: break`). -/
def strategy1 (env : Env) : String × List Event :=
  if env.openOk then
    let r := runPages1 1 (env.pages.take 10)
    (r.1, Event.stratAttempt 1 :: r.2)
  else ("", [Event.stratAttempt 1])

/-- Strategy 2 core (lines 115-152): `convert_from_path(..., first_page=1,
last_page=5)` rasterizes at most the first 5 pages; a raised conversion error
is caught with nothing appended.  (The `stratAttempt 2` event is added by the
orchestrator when the strategy is entered.) -/
def strategy2 (env : Env) : String × List Event :=
  if env.convertOk then runPages2 1 (env.pages.take 5) else ("", [])

/-- The text strategy 3 (lines 154-170) would install: `pdftotext`'s stripped
stdout when the command returns exit status 0 and non-blank output, and the
empty string whenever the command fails, times out, or prints nothing. -/
def stage3Text (env : Env) : String :=
  match env.pdftotext with
  | .exn _ _ => ""
  | .ok (rc, out, _) => if rc = 0 ∧ pstrip out ≠ "" then pstrip out else ""

/-- The `json.dumps({"timestamp": "now", "python_version": sys.version})`
fragment of the metadata fallback (line 179). -/
def metaLine (env : Env) : String :=
  "\x7b\"timestamp\": \"now\", \"python_version\": \"" ++ env.pyVersion ++ "\"\x7d"

/-- The f-string of the metadata fallback (lines 175-189), before `.strip()`. -/
def placeholderBody (env : Env) (name : String) : String :=
  "\nDOCUMENTO PDF: " ++ env.baseName ++
  "\nTAMANHO: " ++ Nat.repr (env.fileSize / 1024) ++ "KB" ++
  "\nSTARTUP: " ++ name ++
  "\nPROCESSADO: " ++ metaLine env ++
  "\n\nAVISO: Extração automática de texto falhou.\nEste PDF pode estar:\n- Protegido por senha\n- Corrompido\n- Composto principalmente por imagens escaneadas\n- Em formato não suportado\n\nRECOMENDAÇÃO: Revisar manualmente o conteúdo do pitch deck.\n        "

/-- The synthesized metadata-fallback text (line 175, after `.strip()`). -/
def placeholder (env : Env) (name : String) : String :=
  pstrip (placeholderBody env name)

/-- State after strategy 1: `(extracted_text, extraction_method, events)`
(lines 63-113, with the method set at lines 106-107). -/
def stage1res (env : Env) : String × String × List Event :=
  ((strategy1 env).1,
   (if pstrip (strategy1 env).1 = "" then "" else "pdfplumber + OCR inline"),
   (strategy1 env).2)

/-- Strategy-2 block (lines 115-152), guarded by
`if not extracted_text.strip():` and appending to the accumulated text. -/
def stage2 (env : Env) (st : String × String × List Event) :
    String × String × List Event :=
  if pstrip st.1 = "" then
    (st.1 ++ (strategy2 env).1,
     (if pstrip (st.1 ++ (strategy2 env).1) = "" then st.2.1
      else "pdf2image + Tesseract OCR completo"),
     st.2.2 ++ Event.stratAttempt 2 :: (strategy2 env).2)
  else st

/-- Strategy-3 block (lines 154-170): replace the (blank) accumulated text
with `pdftotext`'s stripped stdout on success. -/
def stage3 (env : Env) (st : String × String × List Event) :
    String × String × List Event :=
  if pstrip st.1 = "" then
    match env.pdftotext with
    | .exn _ _ => (st.1, st.2.1, st.2.2 ++ [Event.stratAttempt 3, Event.extCmdCall])
    | .ok (rc, out, _) =>
      if rc = 0 ∧ pstrip out ≠ "" then
        (pstrip out, "pdftotext system command",
         st.2.2 ++ [Event.stratAttempt 3, Event.extCmdCall])
      else (st.1, st.2.1, st.2.2 ++ [Event.stratAttempt 3, Event.extCmdCall])
  else st

/-- Metadata-fallback block (lines 172-190). -/
def stage4 (env : Env) (name : String) (st : String × String × List Event) :
    String × String × List Event :=
  if pstrip st.1 = "" then
    (placeholder env name, "fallback - metadados apenas",
     st.2.2 ++ [Event.stratAttempt 4])
  else st

/-- The extraction cascade of `extract_text_from_pdf` (lines 60-190):
`(extracted_text, extraction_method, events)` after all four stages. -/
def extractCore (env : Env) (name : String) : String × String × List Event :=
  stage4 env name (stage3 env (stage2 env (stage1res env)))

/-- `extract_text_from_pdf` (lines 41-201).  On a missing file it returns the
error dict of lines 49-55; otherwise it runs the cascade, calls the analyzer
on the final text, and assembles the result dict of lines 195-201.  An
exception escaping the analyzer would propagate, hence the `Res`. -/
def extract_text_from_pdf (env : Env) (pdf_path : String) (startup_name : String) :
    Res J × List Event :=
  if env.fileExists then
    let core := extractCore env startup_name
    let ares := analyze_with_openai env.ai core.1 startup_name
    match ares.1 with
    | .ok a =>
      (Res.ok (J.obj
        [("extracted_text", J.str core.1),
         ("extraction_method", J.str core.2.1),
         ("text_length", J.num (core.1.length : Int)),
         ("file_size_kb", J.num ((env.fileSize / 1024 : Nat) : Int)),
         ("analysis", a)]),
       core.2.2 ++ ares.2)
    | .exn ty msg => (Res.exn ty msg, core.2.2 ++ ares.2)
  else
    (Res.ok (J.obj
      [("error", J.str ("Arquivo não encontrado: " ++ pdf_path)),
       ("extracted_text", J.str ""),
       ("extraction_method", J.str "failed"),
       ("analysis", J.obj [("name", J.str startup_name),
                           ("error", J.str "Arquivo não encontrado")])]), [])

/-- The `__main__` block (lines 333-369): argument check, top-level try, and
exit status.  Returns the JSON object printed on stdout and the exit code. -/
def mainRun (argv : List String) (env : Env) : J × Nat :=
  match argv with
  | [_script, pdf_path, startup_name] =>
    match extract_text_from_pdf env pdf_path startup_name with
    | (.ok j, _) => (j, 0)
    | (.exn ty msg, _) =>
      (J.obj [("error", J.str msg), ("error_type", J.str ty),
              ("extracted_text", J.str ""),
              ("extraction_method", J.str "failed"),
              ("analysis", J.obj [("name", J.str startup_name),
                                  ("error", J.str msg),
                                  ("traceback", J.str msg)])], 1)
  | _ =>
    (J.obj [("error", J.str "Uso incorreto. Sintaxe: python pdf-extractor-python.py <caminho_pdf> <nome_startup>"),
            ("extracted_text", J.str ""),
            ("extraction_method", J.str "failed"),
            ("analysis", J.obj [("error", J.str "Argumentos incorretos")])], 1)

/-- `s` contains `sub` as a contiguous substring. -/
def containsSub (s sub : String) : Prop :=
  ∃ a b, s.data = a ++ sub.data ++ b

theorem data_append (s t : String) : (s ++ t).data = s.data ++ t.data := rfl

theorem data_eq_nil_iff (s : String) : s.data = [] ↔ s = "" := by
  constructor
  · intro h; cases s; simp_all
  · intro h; subst h; rfl

theorem pstrip_data (s : String) : (pstrip s).data = pstripList s.data := rfl

theorem pstrip_eq_empty_iff (s : String) : pstrip s = "" ↔ pstripList s.data = [] := by
  rw [← data_eq_nil_iff, pstrip_data]

theorem pstripList_eq_nil_iff (l : List Char) :
    pstripList l = [] ↔ ∀ c ∈ l, pyWs c = true := by
  unfold pstripList
  rw [List.reverse_eq_nil_iff, List.dropWhile_eq_nil_iff]
  constructor
  · intro h c hc
    have hsplit := List.takeWhile_append_dropWhile (p := pyWs) (l := l)
    rcases List.mem_append.mp (by rw [hsplit]; exact hc) with h1 | h2
    · exact List.mem_takeWhile_imp h1
    · exact h c (List.mem_reverse.mpr h2)
  · intro h c hc
    apply h
    have : c ∈ l.dropWhile pyWs := List.mem_reverse.mp hc
    have hsplit := List.takeWhile_append_dropWhile (p := pyWs) (l := l)
    rw [← hsplit]
    exact List.mem_append.mpr (Or.inr this)

theorem pstrip_append_eq_empty_iff (s t : String) :
    pstrip (s ++ t) = "" ↔ pstrip s = "" ∧ pstrip t = "" := by
  simp only [pstrip_eq_empty_iff, data_append, pstripList_eq_nil_iff, List.mem_append]
  constructor
  · intro h
    exact ⟨fun c hc => h c (Or.inl hc), fun c hc => h c (Or.inr hc)⟩
  · rintro ⟨h1, h2⟩ c hc
    rcases hc with hc | hc
    · exact h1 c hc
    · exact h2 c hc

theorem pstrip_ne_empty_of_mem {s : String} {c : Char}
    (hc : c ∈ s.data) (hw : pyWs c = false) : pstrip s ≠ "" := by
  intro h
  rw [pstrip_eq_empty_iff, pstripList_eq_nil_iff] at h
  rw [h c hc] at hw
  simp at hw

theorem dropWhile_append_of_mem {p : Char → Bool} {A : List Char} (r : List Char)
    (h : ∃ c ∈ A, p c = false) :
    (A ++ r).dropWhile p = A.dropWhile p ++ r := by
  induction A with
  | nil => rcases h with ⟨c, hc, _⟩; cases hc
  | cons a A' ih =>
    by_cases ha : p a = true
    · have h' : ∃ c ∈ A', p c = false := by
        rcases h with ⟨c, hc, hpc⟩
        rcases List.mem_cons.mp hc with rfl | hc'
        · rw [ha] at hpc; cases hpc
        · exact ⟨c, hc', hpc⟩
      simp [List.dropWhile, ha, ih h']
    · simp [List.dropWhile, ha]

theorem pstripList_context {A B : List Char} (m : List Char)
    (hA : ∃ c ∈ A, pyWs c = false) (hB : ∃ c ∈ B, pyWs c = false) :
    ∃ x y, pstripList (A ++ m ++ B) = x ++ m ++ y := by
  unfold pstripList
  rw [List.append_assoc, dropWhile_append_of_mem (m ++ B) hA]
  set X := A.dropWhile pyWs with hX
  rw [← List.append_assoc]
  have hrev : ((X ++ m) ++ B).reverse = B.reverse ++ (m.reverse ++ X.reverse) := by
    simp [List.reverse_append, List.append_assoc]
  rw [hrev]
  have hBrev : ∃ c ∈ B.reverse, pyWs c = false := by
    rcases hB with ⟨c, hc, hpc⟩
    exact ⟨c, List.mem_reverse.mpr hc, hpc⟩
  rw [dropWhile_append_of_mem (m.reverse ++ X.reverse) hBrev]
  refine ⟨X, (B.reverse.dropWhile pyWs).reverse, ?_⟩
  simp [List.reverse_append, List.append_assoc]

theorem containsSub_of_context (A m B : String)
    (hA : ∃ c ∈ A.data, pyWs c = false) (hB : ∃ c ∈ B.data, pyWs c = false) :
    containsSub (pstrip (A ++ m ++ B)) m := by
  rcases pstripList_context m.data hA hB with ⟨x, y, hxy⟩
  refine ⟨x, y, ?_⟩
  rw [pstrip_data]
  simpa [data_append] using hxy

theorem dropWhile_head_false {p : Char → Bool} {l t : List Char} {c : Char}
    (h : l.dropWhile p = c :: t) : p c = false := by
  induction l with
  | nil => cases h
  | cons a l' ih =>
    by_cases ha : p a = true
    · rw [List.dropWhile_cons_of_pos ha] at h; exact ih h
    · rw [List.dropWhile_cons_of_neg ha] at h
      cases h
      exact Bool.not_eq_true _ |>.mp ha

theorem pstripList_split (l : List Char) :
    pstripList l ++ ((l.dropWhile pyWs).reverse.takeWhile pyWs).reverse
      = l.dropWhile pyWs := by
  unfold pstripList
  rw [← List.reverse_append, List.takeWhile_append_dropWhile, List.reverse_reverse]

theorem pstripList_head_false {l t : List Char} {c : Char}
    (h : pstripList l = c :: t) : pyWs c = false := by
  have hXeq := pstripList_split l
  rw [h] at hXeq
  exact dropWhile_head_false (by simpa using hXeq.symm)

theorem pstripList_ne_nil_stable {l : List Char} (h : pstripList l ≠ []) :
    pstripList (pstripList l) ≠ [] := by
  intro hnil
  rw [pstripList_eq_nil_iff] at hnil
  cases hz : pstripList l with
  | nil => exact h hz
  | cons c t =>
    have hc := pstripList_head_false hz
    have hmem := hnil c (by rw [hz]; exact List.mem_cons_self _ _)
    rw [hmem] at hc
    simp at hc

theorem pstrip_pstrip_ne {s : String} (h : pstrip s ≠ "") :
    pstrip (pstrip s) ≠ "" := by
  intro hc
  rw [pstrip_eq_empty_iff, pstrip_data] at hc
  exact pstripList_ne_nil_stable
    (fun hnil => h (by rw [pstrip_eq_empty_iff]; exact hnil)) hc

theorem lookupJ_setKey (fields : List (String × J)) (k : String) (v : J) :
    lookupJ (setKey fields k v) k = some v := by
  induction fields with
  | nil => simp [setKey, lookupJ]
  | cons kv rest ih =>
    rcases kv with ⟨k', v'⟩
    by_cases hk : k' = k
    · simp [setKey, hk, lookupJ]
    · simp [setKey, hk, lookupJ, ih]

theorem analyze_events (env : AiEnv) (text name : String) :
    ∀ e ∈ (analyze_with_openai env text name).2, e = Event.netCall := by
  unfold analyze_with_openai
  by_cases hk : keyFalsy env.apiKey
  · simp [hk]
  · simp only [hk, if_false, Bool.false_eq_true]
    rcases env.newApi with ⟨ty, msg⟩ | s
    · rcases env.oldApi with ⟨ty', msg'⟩ | s'
      · simp
      · rcases hp : env.parse (cleanFence s') with ⟨pt, pm⟩ | j
        · simp [hp]
        · rcases j <;> simp [hp]
    · rcases hp : env.parse (cleanFence s) with ⟨pt, pm⟩ | j
      · simp [hp]
      · rcases j <;> simp [hp]

theorem analyze_isOk (env : AiEnv) (text name : String) :
    ∃ fields, (analyze_with_openai env text name).1 = Res.ok (J.obj fields) := by
  unfold analyze_with_openai
  by_cases hk : keyFalsy env.apiKey
  · simp [hk, noKeyResult]
  · simp only [hk, if_false, Bool.false_eq_true]
    rcases env.newApi with ⟨ty, msg⟩ | s
    · rcases env.oldApi with ⟨ty', msg'⟩ | s'
      · simp [aiErrorFallback]
      · rcases hp : env.parse (cleanFence s') with ⟨pt, pm⟩ | j
        · simp [hp, parseFailFallback]
        · rcases j <;> simp [hp, aiErrorFallback]
    · rcases hp : env.parse (cleanFence s) with ⟨pt, pm⟩ | j
      · simp [hp, parseFailFallback]
      · rcases j <;> simp [hp, aiErrorFallback]

theorem analyze_name (env : AiEnv) (text name : String) :
    resGet (analyze_with_openai env text name).1 "name" = some (J.str name) := by
  unfold analyze_with_openai
  by_cases hk : keyFalsy env.apiKey
  · simp [hk, noKeyResult, resGet, jGet, lookupJ]
  · simp only [hk, if_false, Bool.false_eq_true]
    rcases env.newApi with ⟨ty, msg⟩ | s
    · rcases env.oldApi with ⟨ty', msg'⟩ | s'
      · simp [aiErrorFallback, resGet, jGet, lookupJ]
      · rcases hp : env.parse (cleanFence s') with ⟨pt, pm⟩ | j
        · simp [hp, parseFailFallback, resGet, jGet, lookupJ]
        · rcases j <;>
            simp [hp, aiErrorFallback, resGet, jGet, lookupJ, lookupJ_setKey]
    · rcases hp : env.parse (cleanFence s) with ⟨pt, pm⟩ | j
      · simp [hp, parseFailFallback, resGet, jGet, lookupJ]
      · rcases j <;>
          simp [hp, aiErrorFallback, resGet, jGet, lookupJ, lookupJ_setKey]

theorem mem_data_append_left {c : Char} {a : String} (b : String)
    (h : c ∈ a.data) : c ∈ (a ++ b).data := by
  rw [data_append]; exact List.mem_append.mpr (Or.inl h)

theorem pageMarker_strip_ne (i : Nat) (t : String) : pstrip (pageMarker i t) ≠ "" := by
  apply pstrip_ne_empty_of_mem (c := '=')
  · unfold pageMarker
    exact mem_data_append_left _ (mem_data_append_left _ (mem_data_append_left _
      (mem_data_append_left _ (by decide))))
  · decide

theorem ocrMarker_strip_ne (i : Nat) (t : String) : pstrip (ocrMarker i t) ≠ "" := by
  apply pstrip_ne_empty_of_mem (c := '=')
  · unfold ocrMarker
    exact mem_data_append_left _ (mem_data_append_left _ (mem_data_append_left _
      (mem_data_append_left _ (by decide))))
  · decide

theorem fullMarker_strip_ne (i : Nat) (t : String) : pstrip (fullMarker i t) ≠ "" := by
  apply pstrip_ne_empty_of_mem (c := '=')
  · unfold fullMarker
    exact mem_data_append_left _ (mem_data_append_left _ (mem_data_append_left _
      (mem_data_append_left _ (by decide))))
  · decide

theorem pp1_shape {i : Nat} {p : Page} {e : Event}
    (h : e ∈ (processPage1 i p).2) : ∃ k, e = Event.pageEv k 1 i := by
  rcases p with ⟨et, ti, si, oi, sf, of⟩
  rcases et with ⟨a, b⟩ | t?
  · simp [processPage1] at h; exact ⟨_, h⟩
  · by_cases ho : optTextOk t? = true
    · simp [processPage1, ho] at h; exact ⟨_, h⟩
    · rcases ti with ⟨a, b⟩ | u
      · simp [processPage1, ho] at h; exact ⟨_, h⟩
      · rcases si with ⟨a, b⟩ | u'
        · simp [processPage1, ho] at h
          rcases h with rfl | rfl <;> exact ⟨_, rfl⟩
        · rcases oi with ⟨a, b⟩ | s
          · simp [processPage1, ho] at h
            rcases h with rfl | rfl | rfl <;> exact ⟨_, rfl⟩
          · simp [processPage1, ho] at h
            rcases h with rfl | rfl | rfl | rfl <;> exact ⟨_, rfl⟩

theorem pp2_shape {i : Nat} {p : Page} {e : Event}
    (h : e ∈ (processPage2 i p).2) : ∃ k, e = Event.pageEv k 2 i := by
  rcases p with ⟨et, ti, si, oi, sf, of⟩
  rcases sf with ⟨a, b⟩ | u
  · simp [processPage2] at h
    rcases h with rfl | rfl <;> exact ⟨_, rfl⟩
  · rcases of with ⟨a, b⟩ | s
    · simp [processPage2] at h
      rcases h with rfl | rfl | rfl <;> exact ⟨_, rfl⟩
    · simp [processPage2] at h
      rcases h with rfl | rfl | rfl | rfl <;> exact ⟨_, rfl⟩

theorem pp1_text_cases (i : Nat) (p : Page) :
    (processPage1 i p).1 = "" ∨ (∃ t, (processPage1 i p).1 = pageMarker i t) ∨
      (∃ s, (processPage1 i p).1 = ocrMarker i s) := by
  rcases p with ⟨et, ti, si, oi, sf, of⟩
  rcases et with ⟨a, b⟩ | t?
  · left; simp [processPage1]
  · by_cases ho : optTextOk t? = true
    · right; left; exact ⟨t?.getD "", by simp [processPage1, ho]⟩
    · rcases ti with ⟨a, b⟩ | u
      · left; simp [processPage1, ho]
      · rcases si with ⟨a, b⟩ | u'
        · left; simp [processPage1, ho]
        · rcases oi with ⟨a, b⟩ | s
          · left; simp [processPage1, ho]
          · by_cases hs : optTextOk (some s) = true
            · right; right; exact ⟨s, by simp [processPage1, ho, hs]⟩
            · left; simp [processPage1, ho, hs]

theorem pp2_text_cases (i : Nat) (p : Page) :
    (processPage2 i p).1 = "" ∨ (∃ s, (processPage2 i p).1 = fullMarker i s) := by
  rcases p with ⟨et, ti, si, oi, sf, of⟩
  rcases sf with ⟨a, b⟩ | u
  · left; simp [processPage2]
  · rcases of with ⟨a, b⟩ | s
    · left; simp [processPage2]
    · by_cases hs : optTextOk (some s) = true
      · right; exact ⟨s, by simp [processPage2, hs]⟩
      · left; simp [processPage2, hs]

theorem pp1_strip_empty {i : Nat} {p : Page}
    (h : pstrip (processPage1 i p).1 = "") : (processPage1 i p).1 = "" := by
  rcases pp1_text_cases i p with h0 | ⟨t, ht⟩ | ⟨s, hs⟩
  · exact h0
  · rw [ht] at h; exact absurd h (pageMarker_strip_ne i t)
  · rw [hs] at h; exact absurd h (ocrMarker_strip_ne i s)

theorem pp2_strip_empty {i : Nat} {p : Page}
    (h : pstrip (processPage2 i p).1 = "") : (processPage2 i p).1 = "" := by
  rcases pp2_text_cases i p with h0 | ⟨s, hs⟩
  · exact h0
  · rw [hs] at h; exact absurd h (fullMarker_strip_ne i s)

theorem mem_runPages1 {e : Event} (l : List Page) (i : Nat) :
    e ∈ (runPages1 i l).2 ↔
      ∃ off p, l.get? off = some p ∧ e ∈ (processPage1 (i + off) p).2 := by
  induction l generalizing i with
  | nil => simp [runPages1]
  | cons p rest ih =>
    simp only [runPages1, List.mem_append]
    constructor
    · rintro (h | h)
      · exact ⟨0, p, rfl, by simpa using h⟩
      · rcases (ih (i + 1)).mp h with ⟨off, q, hq, hm⟩
        refine ⟨off + 1, q, by simpa using hq, ?_⟩
        rw [show i + (off + 1) = i + 1 + off by omega]
        exact hm
    · rintro ⟨off, q, hq, hm⟩
      cases off with
      | zero =>
        left
        simp only [List.get?] at hq
        cases hq
        simpa using hm
      | succ o =>
        right
        apply (ih (i + 1)).mpr
        refine ⟨o, q, by simpa using hq, ?_⟩
        rw [show i + 1 + o = i + (o + 1) by omega]
        exact hm

theorem mem_runPages2 {e : Event} (l : List Page) (i : Nat) :
    e ∈ (runPages2 i l).2 ↔
      ∃ off p, l.get? off = some p ∧ e ∈ (processPage2 (i + off) p).2 := by
  induction l generalizing i with
  | nil => simp [runPages2]
  | cons p rest ih =>
    simp only [runPages2, List.mem_append]
    constructor
    · rintro (h | h)
      · exact ⟨0, p, rfl, by simpa using h⟩
      · rcases (ih (i + 1)).mp h with ⟨off, q, hq, hm⟩
        refine ⟨off + 1, q, by simpa using hq, ?_⟩
        rw [show i + (off + 1) = i + 1 + off by omega]
        exact hm
    · rintro ⟨off, q, hq, hm⟩
      cases off with
      | zero =>
        left
        simp only [List.get?] at hq
        cases hq
        simpa using hm
      | succ o =>
        right
        apply (ih (i + 1)).mpr
        refine ⟨o, q, by simpa using hq, ?_⟩
        rw [show i + 1 + o = i + (o + 1) by omega]
        exact hm

theorem runPages1_strip_empty (l : List Page) (i : Nat)
    (h : pstrip (runPages1 i l).1 = "") : (runPages1 i l).1 = "" := by
  induction l generalizing i with
  | nil => simp [runPages1]
  | cons p rest ih =>
    simp only [runPages1] at h ⊢
    rw [pstrip_append_eq_empty_iff] at h
    rw [pp1_strip_empty h.1, ih (i + 1) h.2]
    rfl

theorem runPages2_strip_empty (l : List Page) (i : Nat)
    (h : pstrip (runPages2 i l).1 = "") : (runPages2 i l).1 = "" := by
  induction l generalizing i with
  | nil => simp [runPages2]
  | cons p rest ih =>
    simp only [runPages2] at h ⊢
    rw [pstrip_append_eq_empty_iff] at h
    rw [pp2_strip_empty h.1, ih (i + 1) h.2]
    rfl

theorem runPages1_split (l : List Page) (i off : Nat) (p : Page)
    (h : l.get? off = some p) :
    ∃ a b, (runPages1 i l).1 = a ++ (processPage1 (i + off) p).1 ++ b := by
  induction l generalizing i off with
  | nil => cases h
  | cons q rest ih =>
    cases off with
    | zero =>
      simp only [List.get?] at h
      cases h
      exact ⟨"", (runPages1 (i + 1) rest).1, by simp [runPages1]⟩
    | succ o =>
      rcases ih (i + 1) o (by simpa using h) with ⟨a, b, hab⟩
      refine ⟨(processPage1 i q).1 ++ a, b, ?_⟩
      simp only [runPages1]
      rw [show i + (o + 1) = i + 1 + o by omega, hab]
      simp [String.append_assoc]

theorem strategy1_strip_empty (env : Env)
    (h : pstrip (strategy1 env).1 = "") : (strategy1 env).1 = "" := by
  unfold strategy1 at h ⊢
  by_cases ho : env.openOk = true
  · simp only [ho, if_true] at h ⊢
    exact runPages1_strip_empty _ 1 h
  · simp only [ho] at h ⊢
    simp

theorem strategy2_strip_empty (env : Env)
    (h : pstrip (strategy2 env).1 = "") : (strategy2 env).1 = "" := by
  unfold strategy2 at h ⊢
  by_cases hc : env.convertOk = true
  · simp only [hc, if_true] at h ⊢
    exact runPages2_strip_empty _ 1 h
  · simp only [hc] at h ⊢
    simp

theorem mem_strategy1 {e : Event} (env : Env) :
    e ∈ (strategy1 env).2 ↔
      e = Event.stratAttempt 1 ∨
        (env.openOk = true ∧ e ∈ (runPages1 1 (env.pages.take 10)).2) := by
  unfold strategy1
  by_cases ho : env.openOk = true <;> simp [ho]

theorem mem_strategy2 {e : Event} (env : Env) :
    e ∈ (strategy2 env).2 ↔
      env.convertOk = true ∧ e ∈ (runPages2 1 (env.pages.take 5)).2 := by
  unfold strategy2
  by_cases hc : env.convertOk = true <;> simp [hc]

theorem core_scenA (env : Env) (name : String)
    (h : pstrip (strategy1 env).1 ≠ "") :
    extractCore env name =
      ((strategy1 env).1, "pdfplumber + OCR inline", (strategy1 env).2) := by
  simp [extractCore, stage4, stage3, stage2, stage1res, h]

theorem core_scenB (env : Env) (name : String)
    (h1 : pstrip (strategy1 env).1 = "")
    (h2 : pstrip ((strategy1 env).1 ++ (strategy2 env).1) ≠ "") :
    extractCore env name =
      ((strategy1 env).1 ++ (strategy2 env).1,
       "pdf2image + Tesseract OCR completo",
       (strategy1 env).2 ++ Event.stratAttempt 2 :: (strategy2 env).2) := by
  simp [extractCore, stage4, stage3, stage2, stage1res, h1, h2]

theorem core_scenC (env : Env) (name : String) (rc : Int) (out err : String)
    (h1 : pstrip (strategy1 env).1 = "")
    (h2 : pstrip ((strategy1 env).1 ++ (strategy2 env).1) = "")
    (h3 : env.pdftotext = Res.ok (rc, out, err))
    (h4 : rc = 0 ∧ pstrip out ≠ "") :
    extractCore env name =
      (pstrip out, "pdftotext system command",
       ((strategy1 env).2 ++ Event.stratAttempt 2 :: (strategy2 env).2) ++
         [Event.stratAttempt 3, Event.extCmdCall]) := by
  have h5 := pstrip_pstrip_ne h4.2
  simp [extractCore, stage4, stage3, stage2, stage1res, h1, h2, h3, h4, h5]

theorem stage3Text_empty_cond (env : Env) (rc : Int) (out err : String)
    (h3 : env.pdftotext = Res.ok (rc, out, err))
    (h : stage3Text env = "") : ¬(rc = 0 ∧ pstrip out ≠ "") := by
  intro hc
  have he : stage3Text env = if rc = 0 ∧ pstrip out ≠ "" then pstrip out else "" := by
    unfold stage3Text; rw [h3]
  rw [he, if_pos hc] at h
  exact hc.2 h

theorem core_scenD (env : Env) (name : String)
    (h1 : pstrip (strategy1 env).1 = "")
    (h2 : pstrip ((strategy1 env).1 ++ (strategy2 env).1) = "")
    (h3 : stage3Text env = "") :
    extractCore env name =
      (placeholder env name, "fallback - metadados apenas",
       (((strategy1 env).2 ++ Event.stratAttempt 2 :: (strategy2 env).2) ++
         [Event.stratAttempt 3, Event.extCmdCall]) ++ [Event.stratAttempt 4]) := by
  rcases hp : env.pdftotext with ⟨ty, msg⟩ | v
  · simp [extractCore, stage4, stage3, stage2, stage1res, h1, h2, hp]
  · rcases v with ⟨rc, out, err⟩
    have hcond := stage3Text_empty_cond env rc out err hp h3
    simp [extractCore, stage4, stage3, stage2, stage1res, h1, h2, hp, hcond]

theorem att_mem_strategy1 (env : Env) (j : Nat) :
    Event.stratAttempt j ∈ (strategy1 env).2 ↔ j = 1 := by
  rw [mem_strategy1]
  constructor
  · rintro (h | ⟨ho, hm⟩)
    · cases h; rfl
    · rcases (mem_runPages1 _ _).mp hm with ⟨off, p, hp, hm2⟩
      rcases pp1_shape hm2 with ⟨k, hk⟩
      cases hk
  · rintro rfl
    exact Or.inl rfl

theorem att_not_mem_strategy2 (env : Env) (j : Nat) :
    Event.stratAttempt j ∉ (strategy2 env).2 := by
  intro h
  rw [mem_strategy2] at h
  rcases (mem_runPages2 _ _).mp h.2 with ⟨off, p, hp, hm2⟩
  rcases pp2_shape hm2 with ⟨k, hk⟩
  cases hk

theorem empty_append (s : String) : "" ++ s = s := by
  cases s
  rfl

theorem placeholderBody_strip_ne (env : Env) (name : String) :
    pstrip (placeholderBody env name) ≠ "" := by
  apply pstrip_ne_empty_of_mem (c := 'D')
  · unfold placeholderBody
    exact mem_data_append_left _ (mem_data_append_left _ (mem_data_append_left _
      (mem_data_append_left _ (mem_data_append_left _ (mem_data_append_left _
        (mem_data_append_left _ (mem_data_append_left _ (mem_data_append_left _
          (by decide)))))))))
  · decide

theorem placeholder_strip_ne (env : Env) (name : String) :
    pstrip (placeholder env name) ≠ "" := by
  unfold placeholder
  exact pstrip_pstrip_ne (placeholderBody_strip_ne env name)

/-- The text each strategy, taken on its own, would contribute (the strategies
communicate only through the guard `if not extracted_text.strip():`, and the
accumulated text is provably empty whenever a later strategy starts). -/
def stageText : Nat → Env → String → String
  | 1, env, _ => (strategy1 env).1
  | 2, env, _ => (strategy2 env).1
  | 3, env, _ => stage3Text env
  | 4, env, name => placeholder env name
  | _, _, _ => ""

/-- The `extraction_method` label each strategy sets on success. -/
def stageLabel : Nat → String
  | 1 => "pdfplumber + OCR inline"
  | 2 => "pdf2image + Tesseract OCR completo"
  | 3 => "pdftotext system command"
  | 4 => "fallback - metadados apenas"
  | _ => ""

theorem core_strategy_order (env : Env) (name : String) :
    ∃ k, 1 ≤ k ∧ k ≤ 4 ∧
      (extractCore env name).2.1 = stageLabel k ∧
      (extractCore env name).1 = stageText k env name ∧
      pstrip (stageText k env name) ≠ "" ∧
      (∀ j, 1 ≤ j → j < k → pstrip (stageText j env name) = "") ∧
      (∀ j, Event.stratAttempt j ∈ (extractCore env name).2.2 ↔ 1 ≤ j ∧ j ≤ k) := by
  by_cases hA : pstrip (strategy1 env).1 = ""
  · by_cases hB : pstrip ((strategy1 env).1 ++ (strategy2 env).1) = ""
    · have ht1 := strategy1_strip_empty env hA
      have hB' : pstrip (strategy2 env).1 = "" := by
        rw [ht1, empty_append] at hB
        exact hB
      by_cases hC : stage3Text env = ""
      · -- scenario D: metadata fallback
        refine ⟨4, by omega, by omega, ?_, ?_, ?_, ?_, ?_⟩
        · rw [core_scenD env name hA hB hC]
          rfl
        · rw [core_scenD env name hA hB hC]
          rfl
        · exact placeholder_strip_ne env name
        · intro j h1 h2
          interval_cases j
          · exact hA
          · exact hB'
          · simp only [stageText, hC]; rfl
        · intro j
          rw [core_scenD env name hA hB hC]
          have hs2 := att_not_mem_strategy2 env j
          simp [att_mem_strategy1, hs2]
          omega
      · -- scenario C: pdftotext succeeds
        rcases hp : env.pdftotext with ⟨ty, msg⟩ | v
        · exfalso
          apply hC
          unfold stage3Text
          rw [hp]
        · rcases v with ⟨rc, out, err⟩
          have he : stage3Text env = if rc = 0 ∧ pstrip out ≠ "" then pstrip out else "" := by
            unfold stage3Text
            rw [hp]
          have hcond : rc = 0 ∧ pstrip out ≠ "" := by
            by_contra hcon
            apply hC
            rw [he, if_neg hcon]
          have h3eq : stage3Text env = pstrip out := by
            rw [he, if_pos hcond]
          refine ⟨3, by omega, by omega, ?_, ?_, ?_, ?_, ?_⟩
          · rw [core_scenC env name rc out err hA hB hp hcond]
            rfl
          · rw [core_scenC env name rc out err hA hB hp hcond]
            simp only [stageText, h3eq]
          · simp only [stageText, h3eq]
            exact pstrip_pstrip_ne hcond.2
          · intro j h1 h2
            interval_cases j
            · exact hA
            · exact hB'
          · intro j
            rw [core_scenC env name rc out err hA hB hp hcond]
            have hs2 := att_not_mem_strategy2 env j
            simp [att_mem_strategy1, hs2]
            omega
    · -- scenario B: full-document OCR succeeds
      have ht1 := strategy1_strip_empty env hA
      refine ⟨2, by omega, by omega, ?_, ?_, ?_, ?_, ?_⟩
      · rw [core_scenB env name hA hB]
        rfl
      · rw [core_scenB env name hA hB]
        simp only [stageText, ht1, empty_append]
      · show pstrip (strategy2 env).1 ≠ ""
        rw [ht1, empty_append] at hB
        exact hB
      · intro j h1 h2
        interval_cases j
        exact hA
      · intro j
        rw [core_scenB env name hA hB]
        have hs2 := att_not_mem_strategy2 env j
        simp [att_mem_strategy1, hs2]
        omega
  · -- scenario A: native text (with inline OCR) succeeds
    refine ⟨1, by omega, by omega, ?_, ?_, hA, ?_, ?_⟩
    · rw [core_scenA env name hA]
      rfl
    · rw [core_scenA env name hA]
      rfl
    · intro j h1 h2
      omega
    · intro j
      rw [core_scenA env name hA]
      rw [att_mem_strategy1]
      omega

theorem extract_eq_ok (env : Env) (path name : String) (h : env.fileExists = true)
    (fields : List (String × J))
    (hok : (analyze_with_openai env.ai (extractCore env name).1 name).1
      = Res.ok (J.obj fields)) :
    extract_text_from_pdf env path name =
      (Res.ok (J.obj
        [("extracted_text", J.str (extractCore env name).1),
         ("extraction_method", J.str (extractCore env name).2.1),
         ("text_length", J.num ((extractCore env name).1.length : Int)),
         ("file_size_kb", J.num ((env.fileSize / 1024 : Nat) : Int)),
         ("analysis", J.obj fields)]),
       (extractCore env name).2.2
         ++ (analyze_with_openai env.ai (extractCore env name).1 name).2) := by
  simp only [extract_text_from_pdf, h, if_true, hok]

theorem extract_eq_notfound (env : Env) (path name : String)
    (h : env.fileExists = false) :
    extract_text_from_pdf env path name =
      (Res.ok (J.obj
        [("error", J.str ("Arquivo não encontrado: " ++ path)),
         ("extracted_text", J.str ""),
         ("extraction_method", J.str "failed"),
         ("analysis", J.obj [("name", J.str name),
                             ("error", J.str "Arquivo não encontrado")])]), []) := by
  simp only [extract_text_from_pdf, h, Bool.false_eq_true, if_false]

theorem extract_fields (env : Env) (path name : String) (h : env.fileExists = true) :
    resGet (extract_text_from_pdf env path name).1 "extraction_method"
        = some (J.str (extractCore env name).2.1) ∧
    resGet (extract_text_from_pdf env path name).1 "extracted_text"
        = some (J.str (extractCore env name).1) ∧
    (extract_text_from_pdf env path name).2
        = (extractCore env name).2.2
          ++ (analyze_with_openai env.ai (extractCore env name).1 name).2 := by
  rcases analyze_isOk env.ai (extractCore env name).1 name with ⟨fields, hok⟩
  rw [extract_eq_ok env path name h fields hok]
  refine ⟨?_, ?_, rfl⟩ <;> simp [resGet, jGet, lookupJ]

theorem extract_isOk (env : Env) (path name : String) :
    ∃ j, (extract_text_from_pdf env path name).1 = Res.ok j := by
  by_cases h : env.fileExists = true
  · rcases analyze_isOk env.ai (extractCore env name).1 name with ⟨fields, hok⟩
    rw [extract_eq_ok env path name h fields hok]
    exact ⟨_, rfl⟩
  · rw [extract_eq_notfound env path name (by simpa using h)]
    exact ⟨_, rfl⟩

/-- The tail literal of the metadata-fallback f-string (after the
`PROCESSADO` interpolation). -/
def avisoTail : String :=
  "\n\nAVISO: Extração automática de texto falhou.\nEste PDF pode estar:\n- Protegido por senha\n- Corrompido\n- Composto principalmente por imagens escaneadas\n- Em formato não suportado\n\nRECOMENDAÇÃO: Revisar manualmente o conteúdo do pitch deck.\n        "

theorem str_ext {s t : String} (h : s.data = t.data) : s = t := by
  cases s
  cases t
  cases h
  rfl

set_option maxRecDepth 8192 in
theorem placeholder_contains_baseName (env : Env) (name : String) :
    containsSub (placeholder env name) env.baseName := by
  have hbody : placeholderBody env name
      = "\nDOCUMENTO PDF: " ++ env.baseName ++
        ("\nTAMANHO: " ++ (Nat.repr (env.fileSize / 1024) ++ ("KB" ++
          ("\nSTARTUP: " ++ (name ++ ("\nPROCESSADO: " ++ (metaLine env ++
            avisoTail))))))) := by
    apply str_ext
    simp only [placeholderBody, avisoTail, data_append, List.append_assoc]
  unfold placeholder
  rw [hbody]
  apply containsSub_of_context
  · exact ⟨'D', by decide, by decide⟩
  · exact ⟨'T', mem_data_append_left _ (by decide), by decide⟩

set_option maxRecDepth 8192 in
theorem placeholder_contains_sizeKB (env : Env) (name : String) :
    containsSub (placeholder env name) (Nat.repr (env.fileSize / 1024) ++ "KB") := by
  have hbody : placeholderBody env name
      = ("\nDOCUMENTO PDF: " ++ (env.baseName ++ "\nTAMANHO: ")) ++
        (Nat.repr (env.fileSize / 1024) ++ "KB") ++
        ("\nSTARTUP: " ++ (name ++ ("\nPROCESSADO: " ++ (metaLine env ++
          avisoTail)))) := by
    apply str_ext
    simp only [placeholderBody, avisoTail, data_append, List.append_assoc]
  unfold placeholder
  rw [hbody]
  apply containsSub_of_context
  · exact ⟨'D', mem_data_append_left _ (by decide), by decide⟩
  · exact ⟨'S', mem_data_append_left _ (by decide), by decide⟩

set_option maxRecDepth 8192 in
theorem placeholder_contains_name (env : Env) (name : String) :
    containsSub (placeholder env name) name := by
  have hbody : placeholderBody env name
      = ("\nDOCUMENTO PDF: " ++ (env.baseName ++ ("\nTAMANHO: " ++
          (Nat.repr (env.fileSize / 1024) ++ ("KB" ++ "\nSTARTUP: "))))) ++
        name ++
        ("\nPROCESSADO: " ++ (metaLine env ++ avisoTail)) := by
    apply str_ext
    simp only [placeholderBody, avisoTail, data_append, List.append_assoc]
  unfold placeholder
  rw [hbody]
  apply containsSub_of_context
  · exact ⟨'D', mem_data_append_left _ (by decide), by decide⟩
  · exact ⟨'P', mem_data_append_left _ (by decide), by decide⟩

/-- Every strategy failed to produce usable text: strategy 1's loop output is
blank, strategy 2's loop output is blank, and `pdftotext` yielded nothing. -/
def allStrategiesEmpty (env : Env) : Prop :=
  pstrip (strategy1 env).1 = "" ∧ pstrip (strategy2 env).1 = "" ∧ stage3Text env = ""

theorem core_allEmpty (env : Env) (name : String) (h : allStrategiesEmpty env) :
    (extractCore env name).2.1 = "fallback - metadados apenas" ∧
    (extractCore env name).1 = placeholder env name := by
  obtain ⟨h1, h2, h3⟩ := h
  have ht1 := strategy1_strip_empty env h1
  have h12 : pstrip ((strategy1 env).1 ++ (strategy2 env).1) = "" := by
    rw [ht1, empty_append]
    exact h2
  rw [core_scenD env name h1 h12 h3]
  exact ⟨rfl, rfl⟩

theorem core_meth_text_ne (env : Env) (name : String) :
    (extractCore env name).2.1 ≠ "" ∧ pstrip (extractCore env name).1 ≠ "" := by
  rcases core_strategy_order env name with ⟨k, hk1, hk4, hm, ht, hne, _, _⟩
  constructor
  · rw [hm]
    interval_cases k <;> decide
  · rw [ht]
    exact hne

/-- Concrete analyzer environment: no credential configured. -/
def aiNone : AiEnv :=
  { apiKey := none, newApi := Res.exn "RuntimeError" "net down",
    oldApi := Res.exn "RuntimeError" "net down",
    parse := fun _ => Res.exn "JSONDecodeError" "bad json" }

/-- Concrete one-page document whose native text layer is usable. -/
def pgNative : Page :=
  { extractText := Res.ok (some "ACME pitch deck"), toImage := Res.ok (),
    saveInline := Res.ok (), ocrInline := Res.ok "", saveFull := Res.ok (),
    ocrFull := Res.ok "" }

/-- Concrete environment: existing file, one native-text page. -/
def envNative : Env :=
  { fileExists := true, fileSize := 2048, baseName := "deck.pdf",
    pages := [pgNative], openOk := true, convertOk := true,
    pdftotext := Res.exn "FileNotFoundError" "pdftotext not installed",
    pyVersion := "3.11.0", ai := aiNone }

/-- Concrete environment: existing file on which every strategy fails. -/
def envAllFail : Env :=
  { fileExists := true, fileSize := 2048, baseName := "deck.pdf",
    pages := [{ extractText := Res.ok none, toImage := Res.exn "Err" "no image",
                saveInline := Res.ok (), ocrInline := Res.ok "",
                saveFull := Res.ok (), ocrFull := Res.ok "" }],
    openOk := true, convertOk := false,
    pdftotext := Res.ok (1, "", "err"), pyVersion := "3.11.0", ai := aiNone }

/-- C1: on an existing file the strategies are attempted in the fixed priority
order 1-4; strategy `j` is attempted iff every earlier strategy produced only
blank (empty-after-strip) text, and the first strategy whose text is non-blank
is terminal: its label is the final `extraction_method`, its text alone is the
final `extracted_text`, and no later strategy is attempted. -/
theorem extract_strategy_order (env : Env) (path name : String)
    (h : env.fileExists = true) :
    ∃ k, 1 ≤ k ∧ k ≤ 4 ∧
      resGet (extract_text_from_pdf env path name).1 "extraction_method"
        = some (J.str (stageLabel k)) ∧
      resGet (extract_text_from_pdf env path name).1 "extracted_text"
        = some (J.str (stageText k env name)) ∧
      pstrip (stageText k env name) ≠ "" ∧
      (∀ j, 1 ≤ j → j < k → pstrip (stageText j env name) = "") ∧
      (∀ j, Event.stratAttempt j ∈ (extract_text_from_pdf env path name).2
        ↔ 1 ≤ j ∧ j ≤ k) := by
  obtain ⟨hm, htx, hlog⟩ := extract_fields env path name h
  rcases core_strategy_order env name with ⟨k, hk1, hk4, cm, ct, hne, hprev, hatt⟩
  refine ⟨k, hk1, hk4, ?_, ?_, hne, hprev, ?_⟩
  · rw [hm, cm]
  · rw [htx, ct]
  · intro j
    rw [hlog, List.mem_append]
    constructor
    · rintro (hj | hj)
      · exact (hatt j).mp hj
      · cases analyze_events _ _ _ _ hj
    · intro hj
      exact Or.inl ((hatt j).mpr hj)

/-- C1 witness: the theorem applied to a concrete one-page native-text
document on an existing file. -/
theorem extract_strategy_order_witness :
    envNative.fileExists = true ∧
    (∃ k, 1 ≤ k ∧ k ≤ 4 ∧
      resGet (extract_text_from_pdf envNative "deck.pdf" "ACME").1 "extraction_method"
        = some (J.str (stageLabel k)) ∧
      resGet (extract_text_from_pdf envNative "deck.pdf" "ACME").1 "extracted_text"
        = some (J.str (stageText k envNative "ACME")) ∧
      pstrip (stageText k envNative "ACME") ≠ "" ∧
      (∀ j, 1 ≤ j → j < k → pstrip (stageText j envNative "ACME") = "") ∧
      (∀ j, Event.stratAttempt j ∈ (extract_text_from_pdf envNative "deck.pdf" "ACME").2
        ↔ 1 ≤ j ∧ j ≤ k)) :=
  ⟨rfl, extract_strategy_order envNative "deck.pdf" "ACME" rfl⟩

/-- C2: on an existing file the returned record's `extraction_method` and
`extracted_text` fields mirror the cascade's outputs, the method label is
non-empty exactly when the final text is non-blank (both always hold, thanks
to the metadata fallback), and when every strategy yields blank text the
method is the metadata-fallback label and the text is the non-empty
synthesized placeholder containing the file name, the size in KB, and the
startup name. -/
theorem extract_method_iff_text (env : Env) (path name : String)
    (h : env.fileExists = true) :
    (resGet (extract_text_from_pdf env path name).1 "extraction_method"
        = some (J.str (extractCore env name).2.1) ∧
     resGet (extract_text_from_pdf env path name).1 "extracted_text"
        = some (J.str (extractCore env name).1)) ∧
    ((extractCore env name).2.1 ≠ "" ↔ pstrip (extractCore env name).1 ≠ "") ∧
    (allStrategiesEmpty env →
      (extractCore env name).2.1 = "fallback - metadados apenas" ∧
      (extractCore env name).1 = placeholder env name ∧
      pstrip (extractCore env name).1 ≠ "" ∧
      containsSub (extractCore env name).1 env.baseName ∧
      containsSub (extractCore env name).1 (Nat.repr (env.fileSize / 1024) ++ "KB") ∧
      containsSub (extractCore env name).1 name) := by
  obtain ⟨hm, htx, _⟩ := extract_fields env path name h
  obtain ⟨hmne, htne⟩ := core_meth_text_ne env name
  refine ⟨⟨hm, htx⟩, ⟨fun _ => htne, fun _ => hmne⟩, ?_⟩
  intro hall
  obtain ⟨hm4, ht4⟩ := core_allEmpty env name hall
  refine ⟨hm4, ht4, htne, ?_, ?_, ?_⟩
  · rw [ht4]; exact placeholder_contains_baseName env name
  · rw [ht4]; exact placeholder_contains_sizeKB env name
  · rw [ht4]; exact placeholder_contains_name env name

/-- C2 witness: the theorem applied to a concrete document on which every
strategy fails, with the inner implication discharged as well. -/
theorem extract_method_iff_text_witness :
    envAllFail.fileExists = true ∧ allStrategiesEmpty envAllFail ∧
    ((resGet (extract_text_from_pdf envAllFail "deck.pdf" "ACME").1 "extraction_method"
        = some (J.str (extractCore envAllFail "ACME").2.1) ∧
      resGet (extract_text_from_pdf envAllFail "deck.pdf" "ACME").1 "extracted_text"
        = some (J.str (extractCore envAllFail "ACME").1)) ∧
     ((extractCore envAllFail "ACME").2.1 ≠ "" ↔
        pstrip (extractCore envAllFail "ACME").1 ≠ "") ∧
     (allStrategiesEmpty envAllFail →
       (extractCore envAllFail "ACME").2.1 = "fallback - metadados apenas" ∧
       (extractCore envAllFail "ACME").1 = placeholder envAllFail "ACME" ∧
       pstrip (extractCore envAllFail "ACME").1 ≠ "" ∧
       containsSub (extractCore envAllFail "ACME").1 envAllFail.baseName ∧
       containsSub (extractCore envAllFail "ACME").1
         (Nat.repr (envAllFail.fileSize / 1024) ++ "KB") ∧
       containsSub (extractCore envAllFail "ACME").1 "ACME")) :=
  ⟨rfl, ⟨by decide, by decide, by decide⟩,
   extract_method_iff_text envAllFail "deck.pdf" "ACME" rfl⟩

/-- C4: whenever extraction runs (the file exists), the record's `analysis`
object carries a `name` field equal to the caller-supplied startup name,
whatever the model oracle, the parse oracle, or the credential did. -/
theorem analysis_name_forced (env : Env) (path name : String)
    (h : env.fileExists = true) :
    ∃ a, resGet (extract_text_from_pdf env path name).1 "analysis" = some a ∧
      jGet a "name" = some (J.str name) := by
  rcases analyze_isOk env.ai (extractCore env name).1 name with ⟨fields, hok⟩
  refine ⟨J.obj fields, ?_, ?_⟩
  · rw [extract_eq_ok env path name h fields hok]
    simp [resGet, jGet, lookupJ]
  · have := analyze_name env.ai (extractCore env name).1 name
    rw [hok] at this
    exact this

/-- C4 witness: the theorem applied to a concrete existing file (with the
credential missing, one of the claim's outcomes). -/
theorem analysis_name_forced_witness :
    envNative.fileExists = true ∧
    ∃ a, resGet (extract_text_from_pdf envNative "deck.pdf" "ACME").1 "analysis"
        = some a ∧ jGet a "name" = some (J.str "ACME") :=
  ⟨rfl, analysis_name_forced envNative "deck.pdf" "ACME" rfl⟩

/-- C5: `analyze_with_openai` never propagates an exception: for every
credential state, model behaviour and parse behaviour it returns a normal
JSON-object result. -/
theorem analyze_never_raises (env : AiEnv) (text name : String) :
    ∃ fields, (analyze_with_openai env text name).1 = Res.ok (J.obj fields) :=
  analyze_isOk env text name

/-- C8: with the credential variable absent the analyzer short-circuits: it
returns exactly the minimal not-configured record, makes no network call, and
the record's `error` field states the key is not configured. -/
theorem no_credential_short_circuit (env : AiEnv) (text name : String)
    (h : env.apiKey = none) :
    analyze_with_openai env text name = (Res.ok (noKeyResult name), []) ∧
    Event.netCall ∉ (analyze_with_openai env text name).2 ∧
    resGet (analyze_with_openai env text name).1 "error"
      = some (J.str "OpenAI API key não configurada") := by
  have hk : keyFalsy env.apiKey = true := by rw [h]; rfl
  have he : analyze_with_openai env text name = (Res.ok (noKeyResult name), []) := by
    simp only [analyze_with_openai, hk, if_true]
  refine ⟨he, ?_, ?_⟩
  · rw [he]; simp
  · rw [he]; simp [resGet, noKeyResult, jGet, lookupJ]

/-- C8 witness: the theorem applied to a concrete credential-less environment. -/
theorem no_credential_short_circuit_witness :
    aiNone.apiKey = none ∧
    (analyze_with_openai aiNone "txt" "ACME" = (Res.ok (noKeyResult "ACME"), []) ∧
     Event.netCall ∉ (analyze_with_openai aiNone "txt" "ACME").2 ∧
     resGet (analyze_with_openai aiNone "txt" "ACME").1 "error"
       = some (J.str "OpenAI API key não configurada")) :=
  ⟨rfl, no_credential_short_circuit aiNone "txt" "ACME" rfl⟩

theorem pp1_native_events {p : Page} (hp : pageHasNativeText p) (i : Nat) :
    (processPage1 i p).2 = [Event.pageEv .proc 1 i] := by
  unfold pageHasNativeText at hp
  rcases hpe : p.extractText with ⟨a, b⟩ | t?
  · rw [hpe] at hp; cases hp
  · rw [hpe] at hp
    simp [processPage1, hpe, hp]

theorem pp1_native_strip_ne {p : Page} (hp : pageHasNativeText p) (i : Nat) :
    pstrip (processPage1 i p).1 ≠ "" := by
  unfold pageHasNativeText at hp
  rcases hpe : p.extractText with ⟨a, b⟩ | t?
  · rw [hpe] at hp; cases hp
  · rw [hpe] at hp
    have : (processPage1 i p).1 = pageMarker i (t?.getD "") := by
      simp [processPage1, hpe, hp]
    rw [this]
    exact pageMarker_strip_ne i _

theorem strategy1_native_ne (env : Env) (ho : env.openOk = true)
    (hsome : ∃ p ∈ env.pages.take 10, pageHasNativeText p) :
    pstrip (strategy1 env).1 ≠ "" := by
  rcases hsome with ⟨p, hmem, hnat⟩
  rcases List.get?_of_mem hmem with ⟨off, hoff⟩
  rcases runPages1_split (env.pages.take 10) 1 off p hoff with ⟨a, b, hab⟩
  have hs1 : (strategy1 env).1 = (runPages1 1 (env.pages.take 10)).1 := by
    simp [strategy1, ho]
  rw [hs1, hab]
  intro hcontra
  rw [pstrip_append_eq_empty_iff, pstrip_append_eq_empty_iff] at hcontra
  exact pp1_native_strip_ne hnat (1 + off) hcontra.1.2

theorem core_log_cases (env : Env) (name : String) :
    (extractCore env name).2.2 = (strategy1 env).2 ∨
    (extractCore env name).2.2
      = (strategy1 env).2 ++ Event.stratAttempt 2 :: (strategy2 env).2 ∨
    (extractCore env name).2.2
      = ((strategy1 env).2 ++ Event.stratAttempt 2 :: (strategy2 env).2)
        ++ [Event.stratAttempt 3, Event.extCmdCall] ∨
    (extractCore env name).2.2
      = (((strategy1 env).2 ++ Event.stratAttempt 2 :: (strategy2 env).2)
        ++ [Event.stratAttempt 3, Event.extCmdCall]) ++ [Event.stratAttempt 4] := by
  by_cases hA : pstrip (strategy1 env).1 = ""
  · by_cases hB : pstrip ((strategy1 env).1 ++ (strategy2 env).1) = ""
    · by_cases hC : stage3Text env = ""
      · right; right; right
        rw [core_scenD env name hA hB hC]
      · rcases hp : env.pdftotext with ⟨ty, msg⟩ | v
        · exfalso
          apply hC
          unfold stage3Text
          rw [hp]
        · rcases v with ⟨rc, out, err⟩
          have he : stage3Text env
              = if rc = 0 ∧ pstrip out ≠ "" then pstrip out else "" := by
            unfold stage3Text
            rw [hp]
          have hcond : rc = 0 ∧ pstrip out ≠ "" := by
            by_contra hcon
            apply hC
            rw [he, if_neg hcon]
          right; right; left
          rw [core_scenC env name rc out err hA hB hp hcond]
    · right; left
      rw [core_scenB env name hA hB]
  · left
    rw [core_scenA env name hA]

theorem core_log_mem (env : Env) (name : String) {e : Event}
    (h : e ∈ (extractCore env name).2.2) :
    e ∈ (strategy1 env).2 ∨ e ∈ (strategy2 env).2 ∨
    e = Event.stratAttempt 2 ∨ e = Event.stratAttempt 3 ∨
    e = Event.stratAttempt 4 ∨ e = Event.extCmdCall := by
  rcases core_log_cases env name with hs | hs | hs | hs
  · rw [hs] at h
    exact Or.inl h
  · rw [hs] at h
    simp only [List.mem_append, List.mem_cons, List.not_mem_nil, or_false] at h
    rcases h with h | h | h
    · exact Or.inl h
    · exact Or.inr (Or.inr (Or.inl h))
    · exact Or.inr (Or.inl h)
  · rw [hs] at h
    simp only [List.mem_append, List.mem_cons, List.not_mem_nil, or_false] at h
    rcases h with (h | h | h) | h | h
    · exact Or.inl h
    · exact Or.inr (Or.inr (Or.inl h))
    · exact Or.inr (Or.inl h)
    · exact Or.inr (Or.inr (Or.inr (Or.inl h)))
    · exact Or.inr (Or.inr (Or.inr (Or.inr (Or.inr h))))
  · rw [hs] at h
    simp only [List.mem_append, List.mem_cons, List.not_mem_nil, or_false] at h
    rcases h with ((h | h | h) | h | h) | h
    · exact Or.inl h
    · exact Or.inr (Or.inr (Or.inl h))
    · exact Or.inr (Or.inl h)
    · exact Or.inr (Or.inr (Or.inr (Or.inl h)))
    · exact Or.inr (Or.inr (Or.inr (Or.inr (Or.inr h))))
    · exact Or.inr (Or.inr (Or.inr (Or.inr (Or.inl h))))

theorem runPages1_bound {k : PageEvKind} {st j : Nat} (l : List Page)
    (h : Event.pageEv k st j ∈ (runPages1 1 l).2) :
    st = 1 ∧ 1 ≤ j ∧ j ≤ l.length := by
  rcases (mem_runPages1 l 1).mp h with ⟨off, p, hoff, hm⟩
  rcases pp1_shape hm with ⟨k', hk⟩
  have hlen : off < l.length := by
    by_contra hle
    rw [List.get?_eq_none.mpr (by omega)] at hoff
    cases hoff
  injection hk with h1 h2 h3
  omega

theorem runPages2_bound {k : PageEvKind} {st j : Nat} (l : List Page)
    (h : Event.pageEv k st j ∈ (runPages2 1 l).2) :
    st = 2 ∧ 1 ≤ j ∧ j ≤ l.length := by
  rcases (mem_runPages2 l 1).mp h with ⟨off, p, hoff, hm⟩
  rcases pp2_shape hm with ⟨k', hk⟩
  have hlen : off < l.length := by
    by_contra hle
    rw [List.get?_eq_none.mpr (by omega)] at hoff
    cases hoff
  injection hk with h1 h2 h3
  omega

theorem log_pageEv_cases (env : Env) (path name : String)
    (hf : env.fileExists = true) {k : PageEvKind} {st j : Nat}
    (hmem : Event.pageEv k st j ∈ (extract_text_from_pdf env path name).2) :
    (st = 1 ∧ 1 ≤ j ∧ j ≤ (env.pages.take 10).length) ∨
    (st = 2 ∧ 1 ≤ j ∧ j ≤ (env.pages.take 5).length) := by
  obtain ⟨_, _, hlog⟩ := extract_fields env path name hf
  rw [hlog, List.mem_append] at hmem
  rcases hmem with hmem | hmem
  · rcases core_log_mem env name hmem with h1 | h2 | h | h | h | h
    · rcases (mem_strategy1 env).mp h1 with hc | ⟨_, hr⟩
      · cases hc
      · exact Or.inl (runPages1_bound _ hr)
    · rcases (mem_strategy2 env).mp h2 with ⟨_, hr⟩
      exact Or.inr (runPages2_bound _ hr)
    · cases h
    · cases h
    · cases h
    · cases h
  · cases analyze_events _ _ _ _ hmem

/-- C3: if some page among the first 10 has a usable native text layer, the
final extraction method is the native-text variant
(`pdfplumber + OCR inline`) and no OCR call is made for any page whose
native text layer is usable. -/
theorem native_text_terminal (env : Env) (path name : String)
    (h : env.fileExists = true) (ho : env.openOk = true)
    (hsome : ∃ p ∈ env.pages.take 10, pageHasNativeText p) :
    resGet (extract_text_from_pdf env path name).1 "extraction_method"
      = some (J.str "pdfplumber + OCR inline") ∧
    ∀ k p, (env.pages.take 10).get? k = some p → pageHasNativeText p →
      ∀ st, Event.pageEv .ocrCall st (k + 1)
        ∉ (extract_text_from_pdf env path name).2 := by
  have hA : pstrip (strategy1 env).1 ≠ "" := strategy1_native_ne env ho hsome
  obtain ⟨hm, _, hlog⟩ := extract_fields env path name h
  constructor
  · rw [hm, core_scenA env name hA]
  · intro k p hk hnat st hmem
    rw [hlog, List.mem_append] at hmem
    rcases hmem with hmem | hmem
    · have hcore : (extractCore env name).2.2 = (strategy1 env).2 := by
        rw [core_scenA env name hA]
      rw [hcore] at hmem
      rcases (mem_strategy1 env).mp hmem with hc | ⟨_, hr⟩
      · cases hc
      · rcases (mem_runPages1 _ _).mp hr with ⟨off, q, hoff, hm2⟩
        rcases pp1_shape hm2 with ⟨k', hk'⟩
        injection hk' with e1 e2 e3
        have hoffk : off = k := by omega
        subst hoffk
        rw [hk] at hoff
        injection hoff with hpq
        subst hpq
        rw [pp1_native_events hnat] at hm2
        simp at hm2
    · cases analyze_events _ _ _ _ hmem

theorem pgNative_native : pageHasNativeText pgNative := by
  show optTextOk (some "ACME pitch deck") = true
  decide

/-- C3 witness: the theorem applied to a concrete one-page document whose
single page has a native text layer. -/
theorem native_text_terminal_witness :
    envNative.fileExists = true ∧ envNative.openOk = true ∧
    (∃ p ∈ envNative.pages.take 10, pageHasNativeText p) ∧
    (resGet (extract_text_from_pdf envNative "deck.pdf" "ACME").1 "extraction_method"
      = some (J.str "pdfplumber + OCR inline") ∧
     ∀ k p, (envNative.pages.take 10).get? k = some p → pageHasNativeText p →
       ∀ st, Event.pageEv .ocrCall st (k + 1)
         ∉ (extract_text_from_pdf envNative "deck.pdf" "ACME").2) :=
  ⟨rfl, rfl, ⟨pgNative, by decide, pgNative_native⟩,
   native_text_terminal envNative "deck.pdf" "ACME" rfl rfl
     ⟨pgNative, by decide, pgNative_native⟩⟩

/-- C9: the native/inline-OCR stage never processes a page past the first 10,
and the full-document OCR stage never rasterizes or OCRs a page past the
first 5: no per-page event is recorded beyond those bounds. -/
theorem page_budget_bounds (env : Env) (path name : String) (j : Nat) :
    (10 < j → ∀ k, Event.pageEv k 1 j ∉ (extract_text_from_pdf env path name).2) ∧
    (5 < j → ∀ k, Event.pageEv k 2 j ∉ (extract_text_from_pdf env path name).2) := by
  by_cases hf : env.fileExists = true
  · constructor
    · intro hj k hmem
      rcases log_pageEv_cases env path name hf hmem with h | h
      · obtain ⟨_, _, h3⟩ := h
        have := List.length_take_le 10 env.pages
        omega
      · obtain ⟨h1, _, _⟩ := h
        omega
    · intro hj k hmem
      rcases log_pageEv_cases env path name hf hmem with h | h
      · obtain ⟨h1, _, _⟩ := h
        omega
      · obtain ⟨_, _, h3⟩ := h
        have := List.length_take_le 5 env.pages
        omega
  · have hf' : env.fileExists = false := by simpa using hf
    constructor <;> intro hj k hmem <;>
      rw [extract_eq_notfound env path name hf'] at hmem <;> simp at hmem

/-- C9 witness: the theorem applied to a concrete environment at page 11. -/
theorem page_budget_bounds_witness :
    (10 < 11 ∧ ∀ k, Event.pageEv k 1 11
        ∉ (extract_text_from_pdf envNative "deck.pdf" "ACME").2) ∧
    (5 < 11 ∧ ∀ k, Event.pageEv k 2 11
        ∉ (extract_text_from_pdf envNative "deck.pdf" "ACME").2) :=
  ⟨⟨by decide, (page_budget_bounds envNative "deck.pdf" "ACME" 11).1 (by decide)⟩,
   ⟨by decide, (page_budget_bounds envNative "deck.pdf" "ACME" 11).2 (by decide)⟩⟩

/-- Concrete page: no text layer, inline OCR raises (save succeeds). -/
def pgOcrRaises : Page :=
  { extractText := Res.ok none, toImage := Res.ok (), saveInline := Res.ok (),
    ocrInline := Res.exn "TesseractError" "boom", saveFull := Res.ok (),
    ocrFull := Res.ok "" }

/-- Concrete environment where page 1's inline OCR raises and page 2 has
native text. -/
def envLeak : Env :=
  { fileExists := true, fileSize := 2048, baseName := "deck.pdf",
    pages := [pgOcrRaises, pgNative], openOk := true, convertOk := true,
    pdftotext := Res.exn "FileNotFoundError" "not installed",
    pyVersion := "3.11.0", ai := aiNone }

/-- C7 counterexample: on `envLeak` the inline OCR of page 1 raises after the
temporary image file is created; the file is never deleted, so cleanup is not
guaranteed on the OCR-failure exit path. -/
theorem tmpfile_leak_cex :
    Event.pageEv .tmpCreate 1 1
        ∈ (extract_text_from_pdf envLeak "deck.pdf" "ACME").2 ∧
    Event.pageEv .tmpDelete 1 1
        ∉ (extract_text_from_pdf envLeak "deck.pdf" "ACME").2 := by
  decide

/-- C7 amended: within one per-page step (in either OCR strategy) the
temporary image file is deleted if and only if it was created and both the
image save and the OCR call returned normally; when either raises, the
`os.unlink` call is skipped and the temporary file is left behind. -/
theorem tmpfile_cleanup_iff (i : Nat) (p : Page) :
    (Event.pageEv .tmpDelete 1 i ∈ (processPage1 i p).2 ↔
      Event.pageEv .tmpCreate 1 i ∈ (processPage1 i p).2 ∧
        p.saveInline = Res.ok () ∧ ∃ s, p.ocrInline = Res.ok s) ∧
    (Event.pageEv .tmpDelete 2 i ∈ (processPage2 i p).2 ↔
      Event.pageEv .tmpCreate 2 i ∈ (processPage2 i p).2 ∧
        p.saveFull = Res.ok () ∧ ∃ s, p.ocrFull = Res.ok s) := by
  rcases p with ⟨et, ti, si, oi, sf, of⟩
  constructor
  · rcases et with ⟨a, b⟩ | t?
    · simp [processPage1]
    · by_cases ho : optTextOk t? = true
      · simp [processPage1, ho]
      · rcases ti with ⟨a, b⟩ | u
        · simp [processPage1, ho]
        · rcases si with ⟨a, b⟩ | u
          · simp [processPage1, ho]
          · rcases oi with ⟨a, b⟩ | s
            · simp [processPage1, ho]
            · simp [processPage1, ho]
  · rcases sf with ⟨a, b⟩ | u
    · simp [processPage2]
    · rcases of with ⟨a, b⟩ | s
      · simp [processPage2]
      · simp [processPage2]

/-- Concrete environment: the named file does not exist. -/
def envMissing : Env :=
  { fileExists := false, fileSize := 0, baseName := "missing.pdf", pages := [],
    openOk := false, convertOk := false, pdftotext := Res.exn "E" "e",
    pyVersion := "3.11.0", ai := aiNone }

/-- Concrete environment: the file exists but is unreadable — pdfplumber and
pdf2image raise and `pdftotext` exits non-zero. -/
def envCorrupt : Env :=
  { fileExists := true, fileSize := 1024, baseName := "corrupt.pdf", pages := [],
    openOk := false, convertOk := false,
    pdftotext := Res.ok (1, "", "Syntax Error"),
    pyVersion := "3.11.0", ai := aiNone }

/-- C6 counterexample: with a nonexistent file path the printed record does
have `extraction_method` "failed", but the process exits with status 0, not a
non-zero status — `extract_text_from_pdf` returns the error dict normally and
`__main__` falls through without `sys.exit(1)`. -/
theorem failed_record_zero_exit_cex :
    jGet (mainRun ["pdf-extractor-python.py", "missing.pdf", "ACME"] envMissing).1
        "extraction_method" = some (J.str "failed") ∧
    (mainRun ["pdf-extractor-python.py", "missing.pdf", "ACME"] envMissing).2 = 0 :=
  ⟨rfl, rfl⟩

/-- C6 amended: a nonexistent path yields the JSON error object with
`extraction_method` "failed" and exit status 0; an existing but unreadable
file (pdfplumber and pdf2image raise, `pdftotext` yields nothing) falls
through to the metadata fallback, also with exit status 0. -/
theorem unreadable_file_record (env1 env2 : Env) (s path name : String)
    (h1 : env1.fileExists = false)
    (h2 : env2.fileExists = true) (h2o : env2.openOk = false)
    (h2c : env2.convertOk = false) (h2p : stage3Text env2 = "") :
    (jGet (mainRun [s, path, name] env1).1 "extraction_method"
        = some (J.str "failed") ∧
     (mainRun [s, path, name] env1).2 = 0) ∧
    (jGet (mainRun [s, path, name] env2).1 "extraction_method"
        = some (J.str "fallback - metadados apenas") ∧
     (mainRun [s, path, name] env2).2 = 0) := by
  constructor
  · have he := extract_eq_notfound env1 path name h1
    constructor
    · simp only [mainRun, he]
      simp [jGet, lookupJ]
    · simp only [mainRun, he]
  · have hall : allStrategiesEmpty env2 := by
      refine ⟨?_, ?_, h2p⟩
      · have hs : (strategy1 env2).1 = "" := by simp [strategy1, h2o]
        rw [hs]
        rfl
      · have hs : (strategy2 env2).1 = "" := by simp [strategy2, h2c]
        rw [hs]
        rfl
    obtain ⟨hm4, _⟩ := core_allEmpty env2 name hall
    rcases analyze_isOk env2.ai (extractCore env2 name).1 name with ⟨fields, hok⟩
    have he := extract_eq_ok env2 path name h2 fields hok
    constructor
    · simp only [mainRun, he]
      simp [jGet, lookupJ, hm4]
    · simp only [mainRun, he]

/-- C6 amended witness: the theorem applied to a concrete nonexistent-file
environment and a concrete unreadable-file environment. -/
theorem unreadable_file_record_witness :
    envMissing.fileExists = false ∧ envCorrupt.fileExists = true ∧
    envCorrupt.openOk = false ∧ envCorrupt.convertOk = false ∧
    stage3Text envCorrupt = "" ∧
    ((jGet (mainRun ["x.py", "a.pdf", "ACME"] envMissing).1 "extraction_method"
        = some (J.str "failed") ∧
      (mainRun ["x.py", "a.pdf", "ACME"] envMissing).2 = 0) ∧
     (jGet (mainRun ["x.py", "a.pdf", "ACME"] envCorrupt).1 "extraction_method"
        = some (J.str "fallback - metadados apenas") ∧
      (mainRun ["x.py", "a.pdf", "ACME"] envCorrupt).2 = 0)) :=
  ⟨rfl, rfl, rfl, rfl, by decide,
   unreadable_file_record envMissing envCorrupt "x.py" "a.pdf" "ACME"
     rfl rfl rfl rfl (by decide)⟩

/-- C10: with an argument count other than exactly two positional arguments,
the program prints the usage error object — whose `analysis` object has an
`error` field but no `name` field — and exits with status 1. -/
theorem bad_argv_error_shape (argv : List String) (env : Env)
    (h : argv.length ≠ 3) :
    (mainRun argv env).2 = 1 ∧
    jGet (mainRun argv env).1 "extraction_method" = some (J.str "failed") ∧
    ∃ a, jGet (mainRun argv env).1 "analysis" = some a ∧
      jGet a "error" = some (J.str "Argumentos incorretos") ∧
      jGet a "name" = none := by
  have hbr : mainRun argv env =
      (J.obj [("error", J.str "Uso incorreto. Sintaxe: python pdf-extractor-python.py <caminho_pdf> <nome_startup>"),
              ("extracted_text", J.str ""),
              ("extraction_method", J.str "failed"),
              ("analysis", J.obj [("error", J.str "Argumentos incorretos")])], 1) := by
    rcases argv with _ | ⟨a, _ | ⟨b, _ | ⟨c, _ | ⟨d, t⟩⟩⟩⟩
    · rfl
    · rfl
    · rfl
    · exact absurd rfl h
    · rfl
  rw [hbr]
  exact ⟨rfl, by simp [jGet, lookupJ],
    J.obj [("error", J.str "Argumentos incorretos")],
    by simp [jGet, lookupJ], by simp [jGet, lookupJ], by simp [jGet, lookupJ]⟩

/-- C10 witness: the theorem applied to a one-argument invocation. -/
theorem bad_argv_error_shape_witness :
    (["pdf-extractor-python.py"] : List String).length ≠ 3 ∧
    ((mainRun ["pdf-extractor-python.py"] envMissing).2 = 1 ∧
     jGet (mainRun ["pdf-extractor-python.py"] envMissing).1 "extraction_method"
       = some (J.str "failed") ∧
     ∃ a, jGet (mainRun ["pdf-extractor-python.py"] envMissing).1 "analysis"
         = some a ∧
       jGet a "error" = some (J.str "Argumentos incorretos") ∧
       jGet a "name" = none) :=
  ⟨by decide, bad_argv_error_shape ["pdf-extractor-python.py"] envMissing (by decide)⟩
